import Mathlib

/-!
Shallow embedding of the quantum-error-correction core of the repository
(`src/qec/`): the parity-check code model (`codes.py`), the syndrome lookup
decoder (`decoders.py`), the Pauli commutation algebra (`stabilizers.py`),
the binary-symmetric-channel error model (`error_models.py`) and the
Monte-Carlo logical-error-rate estimators (`analytics.py`).

Conventions of the embedding:
* binary vectors (numpy integer arrays) are `List ℕ`;
* Python floats and numpy random draws are modelled as `ℚ`; an
  `np.random.Generator` is a stream `ℕ → ℚ` of draws consumed in order,
  each draw lying in `[0, 1)` where that matters (stated as a hypothesis);
* a Python exception is an `Except`/`Option` error value: `Except QecError`
  for the distinct `PauliLengthError`, `Option` for numpy shape errors and
  dictionary `KeyError`s.
-/

namespace Qec

/-- `codes.py` `ParityCheck`: a binary parity-check matrix, rows = checks,
columns = qubits, stored as a list of rows. -/
structure ParityCheck where
  S : List (List ℕ)
deriving DecidableEq, Repr

/-- Integer dot product of two equal-length vectors (as computed inside
`numpy`'s `S @ e_bits`). -/
def dotProd : List ℕ → List ℕ → ℕ
  | a :: as, b :: bs => a * b + dotProd as bs
  | _, _ => 0

/-- Number of columns of the parity-check matrix (the length of its first
row); `numpy` requires the error vector to have exactly this length. -/
def ParityCheck.cols (pc : ParityCheck) : ℕ := pc.S.headI.length

/-- `ParityCheck.syndrome`: `s = S e (mod 2)`.  `numpy` raises a shape
error (`ValueError`) when the vector length differs from the matrix's
column count; that failure is `none` here. -/
def ParityCheck.syndrome (pc : ParityCheck) (e_bits : List ℕ) : Option (List ℕ) :=
  if e_bits.length = pc.cols then
    some (pc.S.map (fun row => dotProd row e_bits % 2))
  else
    none

/-- `codes.py` `ThreeQubitBitFlip.checks`: the fixed parity-check matrix
`[[1,1,0],[0,1,1]]` (checks `Z1Z2` and `Z2Z3`). -/
def threeQubitChecks : ParityCheck := ⟨[[1, 1, 0], [0, 1, 1]]⟩

/-- `ThreeQubitBitFlip.distance`: the fixed property `3`. -/
def threeQubitDistance : ℕ := 3

/-- `ThreeQubitBitFlip.decode_majority`: `int(word_bits.sum() > 1)`. -/
def decode_majority (word_bits : List ℕ) : ℕ :=
  if word_bits.sum > 1 then 1 else 0

/-- `ThreeQubitBitFlip.syndrome`: delegates to the fixed parity check. -/
def threeQubitSyndrome (e_bits : List ℕ) : Option (List ℕ) :=
  threeQubitChecks.syndrome e_bits

/-- `decoders.py` `_BITFLIP_LUT`: the 4-entry syndrome → correction table;
any other key is a dictionary `KeyError`, modelled as `none`. -/
def bitflipLUT : ℕ × ℕ → Option (List ℕ)
  | (0, 0) => some [0, 0, 0]
  | (1, 0) => some [1, 0, 0]
  | (1, 1) => some [0, 1, 0]
  | (0, 1) => some [0, 0, 1]
  | _ => none

/-- `decoders.py` `lookup_decoder_3q`: compute the syndrome of `e_bits`,
read the correction from the lookup table, return `(syndrome, correction)`.
The syndrome list is turned into the 2-tuple key exactly when it has two
entries (`tuple(...)` of the length-2 numpy result). -/
def lookup_decoder_3q (e_bits : List ℕ) : Option (List ℕ × List ℕ) := do
  let syn ← threeQubitSyndrome e_bits
  match syn with
  | [s0, s1] => do
      let corr ← bitflipLUT (s0, s1)
      pure (syn, corr)
  | _ => none

/-- Elementwise `(e + corr) % 2` on two vectors (numpy broadcasting on two
equal-length vectors). -/
def addMod2 (a b : List ℕ) : List ℕ :=
  (a.zip b).map (fun xy => (xy.1 + xy.2) % 2)

/-- `stabilizers.py` `PauliLengthError` (a distinct, catchable exception
class): carries the two mismatched lengths from the message. -/
inductive QecError where
  | pauliLengthError (lp lq : ℕ)
deriving DecidableEq, Repr

/-- Membership in `stabilizers.py` `_ANTI`: the set of unordered pairs
`{X,Z}`, `{X,Y}`, `{Y,Z}` (each listed in both orders in the source). -/
def inAntiTable (a b : Char) : Bool :=
  (a == 'X' && b == 'Z') || (a == 'Z' && b == 'X') ||
  (a == 'X' && b == 'Y') || (a == 'Y' && b == 'X') ||
  (a == 'Y' && b == 'Z') || (a == 'Z' && b == 'Y')

/-- The per-site test of the loop body of `pauli_commutes`: a position is
skipped when either symbol is `I` or the symbols are equal; otherwise it
counts exactly when the unordered pair is in `_ANTI`. -/
def siteAnti (a b : Char) : Bool :=
  if a == 'I' || b == 'I' || a == b then false else inAntiTable a b

/-- `stabilizers.py` `pauli_commutes`: raises `PauliLengthError` on a
length mismatch, otherwise counts anticommuting positions over `zip P Q`
and returns whether the count is even. -/
def pauli_commutes (P Q : String) : Except QecError Bool :=
  if P.length ≠ Q.length then
    .error (.pauliLengthError P.length Q.length)
  else
    .ok (((P.data.zip Q.data).countP (fun ab => siteAnti ab.1 ab.2)) % 2 == 0)

/-- `stabilizers.py` `syndrome_from_pauli`: per generator, 0 if the error
commutes with it, else 1; a `PauliLengthError` raised inside the list
comprehension propagates out. -/
def syndrome_from_pauli (error : String) (generators : List String) :
    Except QecError (List ℕ) :=
  generators.mapM (fun g =>
    (pauli_commutes error g).map (fun c => if c then 0 else 1))

/-- `error_models.py` `bsc_flip_mask` (the `size is None` branch): a
length-`n` mask whose bit `i` is `1` iff draw `off + i` of the random
stream is `< p`. -/
def bsc_flip_mask (n : ℕ) (p : ℚ) (stream : ℕ → ℚ) (off : ℕ) : List ℕ :=
  (List.range n).map (fun i => if stream (off + i) < p then 1 else 0)

/-- `analytics.py` `repetition_mc_error`: sample a `trials × n` flip
matrix (row `t` uses draws `t*n .. t*n+n-1`), decode each row as
`row.sum() > n/2`, return the mean of the decoded bits.  At `trials = 0`
numpy's mean of an empty slice is the float `NaN` (a value, not an
exception), which `ℚ` cannot represent; the embedding totalizes that case
to `0`, and every theorem about this function assumes `0 < trials`. -/
def repetition_mc_error (n : ℕ) (p : ℚ) (trials : ℕ) (stream : ℕ → ℚ) : ℚ :=
  (((List.range trials).countP
      (fun t =>
        decide ((((List.range n).map
          (fun i => if stream (t * n + i) < p then (1 : ℕ) else 0)).sum : ℚ) > (n : ℚ) / 2))) : ℚ)
    / (trials : ℚ)

/-- One loop iteration of `analytics.py` `bitflip_mc_error`: sample a
3-bit error (trial `t` uses draws `t*3 .. t*3+2`), decode, and return the
`int(code.decode_majority(post) == 1)` indicator. -/
def bitflip_trial (p : ℚ) (stream : ℕ → ℚ) (t : ℕ) : Option ℕ :=
  (lookup_decoder_3q (bsc_flip_mask 3 p stream (t * 3))).map
    (fun sc =>
      if decode_majority (addMod2 (bsc_flip_mask 3 p stream (t * 3)) sc.2) = 1 then 1 else 0)

/-- The `errs` accumulator of `bitflip_mc_error` after the first `t`
loop iterations. -/
def bitflip_errs (p : ℚ) (stream : ℕ → ℚ) : ℕ → Option ℕ
  | 0 => some 0
  | t + 1 => do
      let acc ← bitflip_errs p stream t
      let i ← bitflip_trial p stream t
      pure (acc + i)

/-- `analytics.py` `bitflip_mc_error`: accumulate the per-trial indicators
and return `errs / trials`; at `trials = 0` the final division of the two
Python integers raises `ZeroDivisionError`, modelled as `none`. -/
def bitflip_mc_error (p : ℚ) (trials : ℕ) (stream : ℕ → ℚ) : Option ℚ := do
  let errs ← bitflip_errs p stream trials
  if trials = 0 then none else pure ((errs : ℚ) / (trials : ℚ))

/-- One loop iteration of `analytics.py` `phaseflip_mc_error`: identical
sampling and decoding, with the `int(post.sum() > 1)` indicator. -/
def phaseflip_trial (p : ℚ) (stream : ℕ → ℚ) (t : ℕ) : Option ℕ :=
  (lookup_decoder_3q (bsc_flip_mask 3 p stream (t * 3))).map
    (fun sc =>
      if (addMod2 (bsc_flip_mask 3 p stream (t * 3)) sc.2).sum > 1 then 1 else 0)

/-- The `errs` accumulator of `phaseflip_mc_error` after the first `t`
loop iterations. -/
def phaseflip_errs (p : ℚ) (stream : ℕ → ℚ) : ℕ → Option ℕ
  | 0 => some 0
  | t + 1 => do
      let acc ← phaseflip_errs p stream t
      let i ← phaseflip_trial p stream t
      pure (acc + i)

/-- `analytics.py` `phaseflip_mc_error`: accumulate the per-trial
indicators and return `errs / trials`; at `trials = 0` the final division
of the two Python integers raises `ZeroDivisionError`, modelled as
`none`. -/
def phaseflip_mc_error (p : ℚ) (trials : ℕ) (stream : ℕ → ℚ) : Option ℚ := do
  let errs ← phaseflip_errs p stream trials
  if trials = 0 then none else pure ((errs : ℚ) / (trials : ℚ))

/-! ## Spec-side definitions

These follow the spec's words (not the source) and exist only to be
compared against the embedded code. -/

/-- The Pauli symbol alphabet `{I, X, Y, Z}` of the spec. -/
def pauliAlphabet : List Char := ['I', 'X', 'Y', 'Z']

/-- Spec-side per-position anticommutation rule: the two symbols are
distinct and neither is `I`. -/
def specSiteAnti (a b : Char) : Bool :=
  !(a == b) && !(a == 'I') && !(b == 'I')

/-- Spec-side count of anticommuting positions of two Pauli strings. -/
def specAntiCount (P Q : String) : ℕ :=
  (P.data.zip Q.data).countP (fun ab => specSiteAnti ab.1 ab.2)

/-- Spec-side majority rule: `1` iff strictly more than half of the
entries are `1`. -/
def majoritySpec (w : List ℕ) : ℕ :=
  if 2 * w.count 1 > w.length then 1 else 0

/-- The X-type Pauli string of a binary vector: `X` exactly at the
positions holding a `1`, `I` elsewhere. -/
def xTypeString (e : List ℕ) : String :=
  ⟨e.map (fun b => if b = 1 then 'X' else 'I')⟩

/-! ## Helper lemmas -/

lemma siteAnti_eq_spec (a b : Char) (ha : a ∈ pauliAlphabet) (hb : b ∈ pauliAlphabet) :
    siteAnti a b = specSiteAnti a b := by
  simp only [pauliAlphabet, List.mem_cons, List.not_mem_nil, or_false] at ha hb
  rcases ha with rfl | rfl | rfl | rfl <;> rcases hb with rfl | rfl | rfl | rfl <;> decide

lemma trial_indicators_agree (p : ℚ) (stream : ℕ → ℚ) (t : ℕ) :
    bitflip_trial p stream t = phaseflip_trial p stream t := by
  unfold bitflip_trial phaseflip_trial decode_majority
  congr 1
  funext sc
  by_cases h : (addMod2 (bsc_flip_mask 3 p stream (t * 3)) sc.2).sum > 1 <;> simp [h]

lemma errs_agree (p : ℚ) (stream : ℕ → ℚ) (t : ℕ) :
    bitflip_errs p stream t = phaseflip_errs p stream t := by
  induction t with
  | zero => rfl
  | succ t ih =>
      unfold bitflip_errs phaseflip_errs
      rw [ih, trial_indicators_agree]

lemma bsc_flip_mask_of_zero (n : ℕ) (stream : ℕ → ℚ) (off : ℕ)
    (hs : ∀ i, 0 ≤ stream i) :
    bsc_flip_mask n 0 stream off = List.replicate n 0 := by
  unfold bsc_flip_mask
  rw [List.eq_replicate_iff]
  refine ⟨by simp, ?_⟩
  intro b hb
  obtain ⟨i, _, hi⟩ := List.mem_map.mp hb
  rw [← hi, if_neg (not_lt.mpr (hs (off + i)))]

lemma bsc_flip_mask_of_ge_one (n : ℕ) (p : ℚ) (stream : ℕ → ℚ) (off : ℕ)
    (hs : ∀ i, stream i < 1) (hp : 1 ≤ p) :
    bsc_flip_mask n p stream off = List.replicate n 1 := by
  unfold bsc_flip_mask
  rw [List.eq_replicate_iff]
  refine ⟨by simp, ?_⟩
  intro b hb
  obtain ⟨i, _, hi⟩ := List.mem_map.mp hb
  rw [← hi, if_pos (lt_of_lt_of_le (hs (off + i)) hp)]

lemma bitflip_trial_of_zero (stream : ℕ → ℚ) (hs : ∀ i, 0 ≤ stream i) (t : ℕ) :
    bitflip_trial 0 stream t = some 0 := by
  unfold bitflip_trial
  rw [bsc_flip_mask_of_zero 3 stream (t * 3) hs]
  rfl

lemma bitflip_errs_of_zero (stream : ℕ → ℚ) (hs : ∀ i, 0 ≤ stream i) (t : ℕ) :
    bitflip_errs 0 stream t = some 0 := by
  induction t with
  | zero => rfl
  | succ t ih =>
      unfold bitflip_errs
      rw [ih, bitflip_trial_of_zero stream hs t]
      rfl

lemma bitflip_trial_of_ge_one (p : ℚ) (stream : ℕ → ℚ)
    (hs : ∀ i, stream i < 1) (hp : 1 ≤ p) (t : ℕ) :
    bitflip_trial p stream t = some 1 := by
  unfold bitflip_trial
  rw [bsc_flip_mask_of_ge_one 3 p stream (t * 3) hs hp]
  rfl

lemma bitflip_errs_of_ge_one (p : ℚ) (stream : ℕ → ℚ)
    (hs : ∀ i, stream i < 1) (hp : 1 ≤ p) (t : ℕ) :
    bitflip_errs p stream t = some t := by
  induction t with
  | zero => rfl
  | succ t ih =>
      unfold bitflip_errs
      rw [ih, bitflip_trial_of_ge_one p stream hs hp t]
      rfl

lemma repetition_mc_error_of_zero (n trials : ℕ) (stream : ℕ → ℚ)
    (hs : ∀ i, 0 ≤ stream i) :
    repetition_mc_error n 0 trials stream = 0 := by
  unfold repetition_mc_error
  have hcount : (List.range trials).countP
      (fun t => decide ((((List.range n).map
        (fun i => if stream (t * n + i) < (0 : ℚ) then (1 : ℕ) else 0)).sum : ℚ)
          > (n : ℚ) / 2)) = 0 := by
    rw [List.countP_eq_zero]
    intro t _
    have hrow : (List.range n).map
        (fun i => if stream (t * n + i) < (0 : ℚ) then (1 : ℕ) else 0)
        = List.replicate n 0 := bsc_flip_mask_of_zero n stream (t * n) hs
    rw [hrow]
    simp only [List.sum_replicate, smul_zero, Nat.cast_zero, decide_eq_true_eq, not_lt]
    positivity
  rw [hcount]
  simp

lemma repetition_mc_error_of_ge_one (n trials : ℕ) (p : ℚ) (stream : ℕ → ℚ)
    (hs : ∀ i, stream i < 1) (hp : 1 ≤ p) (hn : 0 < n) (htr : 0 < trials) :
    repetition_mc_error n p trials stream = 1 := by
  unfold repetition_mc_error
  have hcount : (List.range trials).countP
      (fun t => decide ((((List.range n).map
        (fun i => if stream (t * n + i) < p then (1 : ℕ) else 0)).sum : ℚ)
          > (n : ℚ) / 2)) = trials := by
    have h1 : (List.range trials).countP
        (fun t => decide ((((List.range n).map
          (fun i => if stream (t * n + i) < p then (1 : ℕ) else 0)).sum : ℚ)
            > (n : ℚ) / 2)) = (List.range trials).length := by
      rw [List.countP_eq_length]
      intro t _
      have hrow : (List.range n).map
          (fun i => if stream (t * n + i) < p then (1 : ℕ) else 0)
          = List.replicate n 1 := bsc_flip_mask_of_ge_one n p stream (t * n) hs hp
      rw [hrow]
      simp only [List.sum_replicate, smul_eq_mul, mul_one, decide_eq_true_eq]
      exact half_lt_self (by exact_mod_cast hn)
    rw [h1, List.length_range]
  rw [hcount]
  exact div_self (Nat.cast_ne_zero.mpr htr.ne')

/-! ## Claims -/

/-- C1: every single-qubit X-error on the 3-qubit code is decoded by the
4-entry lookup table to a correction equal to the error itself, the
residual `(e + correction) mod 2` is the zero vector, and
`decode_majority` of the residual is 0. -/
theorem single_X_errors_fully_corrected :
    bitflipLUT (0, 0) = some [0, 0, 0] ∧
    bitflipLUT (1, 0) = some [1, 0, 0] ∧
    bitflipLUT (1, 1) = some [0, 1, 0] ∧
    bitflipLUT (0, 1) = some [0, 0, 1] ∧
    lookup_decoder_3q [1, 0, 0] = some ([1, 0], [1, 0, 0]) ∧
    lookup_decoder_3q [0, 1, 0] = some ([1, 1], [0, 1, 0]) ∧
    lookup_decoder_3q [0, 0, 1] = some ([0, 1], [0, 0, 1]) ∧
    addMod2 [1, 0, 0] [1, 0, 0] = [0, 0, 0] ∧
    addMod2 [0, 1, 0] [0, 1, 0] = [0, 0, 0] ∧
    addMod2 [0, 0, 1] [0, 0, 1] = [0, 0, 0] ∧
    decode_majority [0, 0, 0] = 0 := by
  decide

/-- C2: `phaseflip_mc_error` computes the same result as
`bitflip_mc_error` on the same random source, because the per-trial
indicator `sum(residual) > 1` coincides with
`decode_majority(residual) == 1`. -/
theorem phaseflip_equals_bitflip_estimator (p : ℚ) (trials : ℕ) (stream : ℕ → ℚ)
    (htr : 0 < trials) :
    bitflip_mc_error p trials stream = phaseflip_mc_error p trials stream ∧
    ∀ residual : List ℕ, (decode_majority residual = 1 ↔ residual.sum > 1) := by
  constructor
  · unfold bitflip_mc_error phaseflip_mc_error
    rw [errs_agree]
  · intro residual
    unfold decode_majority
    by_cases h : residual.sum > 1 <;> simp [h]

/-- Witness for C2 at `p = 1/2`, `trials = 2`, a constant random source. -/
theorem phaseflip_equals_bitflip_estimator_witness :
    bitflip_mc_error (1 / 2) 2 (fun _ => 1 / 3) =
      phaseflip_mc_error (1 / 2) 2 (fun _ => 1 / 3) :=
  (phaseflip_equals_bitflip_estimator (1 / 2) 2 (fun _ => 1 / 3) (by decide)).1

/-- C3: for equal-length Pauli strings over `{I, X, Y, Z}`,
`pauli_commutes` is true iff the number of positions with distinct non-I
symbols is even; in particular `commutes("XYZ","XYZ")` is true and
`commutes("XII","ZII")` is false. -/
theorem pauli_commutes_iff_even_anticount (P Q : String) (hlen : P.length = Q.length)
    (hP : ∀ c ∈ P.data, c ∈ pauliAlphabet) (hQ : ∀ c ∈ Q.data, c ∈ pauliAlphabet) :
    (pauli_commutes P Q = Except.ok true ↔ Even (specAntiCount P Q)) ∧
    pauli_commutes "XYZ" "XYZ" = Except.ok true ∧
    pauli_commutes "XII" "ZII" = Except.ok false := by
  refine ⟨?_, rfl, rfl⟩
  have hc : (P.data.zip Q.data).countP (fun ab => siteAnti ab.1 ab.2) = specAntiCount P Q := by
    unfold specAntiCount
    refine List.countP_congr ?_
    intro ab hab
    obtain ⟨h1, h2⟩ := List.of_mem_zip hab
    rw [siteAnti_eq_spec ab.1 ab.2 (hP _ h1) (hQ _ h2)]
  unfold pauli_commutes
  rw [if_neg (fun h => h hlen), hc]
  simp [Nat.even_iff]

/-- Witness for C3 at the pair `("XIZ", "ZIZ")`. -/
theorem pauli_commutes_iff_even_anticount_witness :
    pauli_commutes "XIZ" "ZIZ" = Except.ok true ↔ Even (specAntiCount "XIZ" "ZIZ") :=
  (pauli_commutes_iff_even_anticount "XIZ" "ZIZ" rfl (by decide) (by decide)).1

/-- C4: on X-type errors, the Pauli-algebra syndrome against the Z-type
generators `["ZZI", "IZZ"]` agrees with the 3-qubit code's linear
parity-check syndrome `S·e mod 2`. -/
theorem pauli_syndrome_agrees_with_linear (e : List ℕ) (hlen : e.length = 3)
    (hbin : ∀ b ∈ e, b = 0 ∨ b = 1) :
    ∃ s, threeQubitSyndrome e = some s ∧
      syndrome_from_pauli (xTypeString e) ["ZZI", "IZZ"] = Except.ok s := by
  obtain ⟨a, b, c, rfl⟩ := List.length_eq_three.mp hlen
  have ha := hbin a (by simp)
  have hb := hbin b (by simp)
  have hc := hbin c (by simp)
  rcases ha with rfl | rfl <;> rcases hb with rfl | rfl <;> rcases hc with rfl | rfl <;>
    exact ⟨_, rfl, rfl⟩

/-- Witness for C4 at the error vector `[1, 0, 0]`. -/
theorem pauli_syndrome_agrees_with_linear_witness :
    threeQubitSyndrome [1, 0, 0] = some [1, 0] ∧
    syndrome_from_pauli (xTypeString [1, 0, 0]) ["ZZI", "IZZ"] = Except.ok [1, 0] := by
  obtain ⟨s, h1, h2⟩ := pauli_syndrome_agrees_with_linear [1, 0, 0] rfl (by decide)
  have h0 : threeQubitSyndrome [1, 0, 0] = some [1, 0] := by decide
  rw [h0] at h1
  obtain rfl : [1, 0] = s := Option.some.inj h1
  exact ⟨h0, h2⟩

/-- C5: `pauli_commutes` on strings of different lengths raises the
distinct, catchable `PauliLengthError` carrying both lengths, and returns
no result. -/
theorem length_mismatch_raises_pauli_length_error (P Q : String)
    (hlen : P.length ≠ Q.length) :
    pauli_commutes P Q = Except.error (QecError.pauliLengthError P.length Q.length) := by
  unfold pauli_commutes
  rw [if_pos hlen]

/-- Witness for C5 at `commutes("XY", "XYZ")`. -/
theorem length_mismatch_raises_pauli_length_error_witness :
    pauli_commutes "XY" "XYZ" = Except.error (QecError.pauliLengthError 2 3) :=
  length_mismatch_raises_pauli_length_error "XY" "XYZ" (by decide)

/-- C6 counterexample, refuting each prong of the claimed fail-fast
InvalidParameter behaviour: at the out-of-range flip probability `p = 2`
the channel and all three estimators return complete ordinary results and
no error is raised; the non-positive qubit count `n = 0` silently yields
the empty mask; and a zero trial count makes the bit-flip and phase-flip
estimators fail only with Python's generic `ZeroDivisionError` at the
final division (modelled `none`), produced by no validation code. -/
theorem no_invalid_parameter_check_counterexample :
    bsc_flip_mask 3 2 (fun _ => 1 / 2) 0 = [1, 1, 1] ∧
    repetition_mc_error 3 2 1 (fun _ => 1 / 2) = 1 ∧
    bitflip_mc_error 2 1 (fun _ => 1 / 2) = some 1 ∧
    phaseflip_mc_error 2 1 (fun _ => 1 / 2) = some 1 ∧
    bsc_flip_mask 0 (1 / 2) (fun _ => 1 / 2) 0 = [] ∧
    bitflip_mc_error (1 / 2) 0 (fun _ => 1 / 2) = none ∧
    phaseflip_mc_error (1 / 2) 0 (fun _ => 1 / 2) = none := by
  have hs : ∀ i : ℕ, (fun _ : ℕ => (1 : ℚ) / 2) i < 1 := fun _ => by norm_num
  have hp : (1 : ℚ) ≤ 2 := by norm_num
  refine ⟨?_, ?_, ?_, ?_, rfl, rfl, rfl⟩
  · rw [bsc_flip_mask_of_ge_one 3 2 _ 0 hs hp]
    rfl
  · exact repetition_mc_error_of_ge_one 3 1 2 _ hs hp (by decide) (by decide)
  · unfold bitflip_mc_error
    rw [bitflip_errs_of_ge_one 2 _ hs hp 1]
    show (if (1 : ℕ) = 0 then none else some (((1 : ℕ) : ℚ) / ((1 : ℕ) : ℚ))) = some 1
    rw [if_neg one_ne_zero]
    norm_num
  · unfold phaseflip_mc_error
    rw [← errs_agree, bitflip_errs_of_ge_one 2 _ hs hp 1]
    show (if (1 : ℕ) = 0 then none else some (((1 : ℕ) : ℚ) / ((1 : ℕ) : ℚ))) = some 1
    rw [if_neg one_ne_zero]
    norm_num

/-- C6 amended: the channel and the estimators perform no parameter
validation.  A flip probability `p ≥ 1` (outside `[0,1]` when `p > 1`) is
silently accepted: every bit flips and all operations return complete
normal results.  A qubit count of 0 is silently accepted, returning the
empty mask.  A zero trial count is not rejected by any check either: the
bit-flip and phase-flip estimators then fail only with the generic
`ZeroDivisionError` of the final `errs / trials` division. -/
theorem no_invalid_parameter_check (n trials : ℕ) (p : ℚ) (stream : ℕ → ℚ)
    (hs : ∀ i, stream i < 1) (hp : 1 ≤ p) (hn : 0 < n) (htr : 0 < trials) :
    bsc_flip_mask n p stream 0 = List.replicate n 1 ∧
    repetition_mc_error n p trials stream = 1 ∧
    bitflip_mc_error p trials stream = some 1 ∧
    phaseflip_mc_error p trials stream = some 1 ∧
    (∀ q : ℚ, ∀ s : ℕ → ℚ, bsc_flip_mask 0 q s 0 = [] ∧
      bitflip_mc_error q 0 s = none ∧ phaseflip_mc_error q 0 s = none) := by
  refine ⟨bsc_flip_mask_of_ge_one n p stream 0 hs hp,
    repetition_mc_error_of_ge_one n trials p stream hs hp hn htr, ?_, ?_,
    fun q s => ⟨rfl, rfl, rfl⟩⟩
  · unfold bitflip_mc_error
    rw [bitflip_errs_of_ge_one p stream hs hp trials]
    show (if trials = 0 then none else some ((trials : ℚ) / (trials : ℚ))) = some 1
    rw [if_neg htr.ne', div_self (Nat.cast_ne_zero.mpr htr.ne')]
  · unfold phaseflip_mc_error
    rw [← errs_agree, bitflip_errs_of_ge_one p stream hs hp trials]
    show (if trials = 0 then none else some ((trials : ℚ) / (trials : ℚ))) = some 1
    rw [if_neg htr.ne', div_self (Nat.cast_ne_zero.mpr htr.ne')]

/-- Witness for the amended C6 at `p = 2`, `n = 3`, `trials = 2`, plus
the zero-qubit and zero-trial cases at `p = 1/3`. -/
theorem no_invalid_parameter_check_witness :
    bsc_flip_mask 3 2 (fun _ => 1 / 2) 0 = List.replicate 3 1 ∧
    repetition_mc_error 3 2 2 (fun _ => 1 / 2) = 1 ∧
    bitflip_mc_error 2 2 (fun _ => 1 / 2) = some 1 ∧
    phaseflip_mc_error 2 2 (fun _ => 1 / 2) = some 1 ∧
    bsc_flip_mask 0 (1 / 3) (fun _ => 1 / 2) 0 = [] ∧
    bitflip_mc_error (1 / 3) 0 (fun _ => 1 / 2) = none ∧
    phaseflip_mc_error (1 / 3) 0 (fun _ => 1 / 2) = none := by
  obtain ⟨h1, h2, h3, h4, h5⟩ := no_invalid_parameter_check 3 2 2 (fun _ => 1 / 2)
    (fun _ => by norm_num) (by norm_num) (by decide) (by decide)
  obtain ⟨h6, h7, h8⟩ := h5 (1 / 3) (fun _ => 1 / 2)
  exact ⟨h1, h2, h3, h4, h6, h7, h8⟩

/-- C7: `ParityCheck.syndrome` fails (numpy shape mismatch, modelled as
`none`) exactly when the vector length differs from the column count, and
on a correctly shaped vector deterministically returns `S·e mod 2`; for
the 3-qubit code the result is `[(a+b) % 2, (b+c) % 2]`. -/
theorem syndrome_shape_mismatch_and_value (pc : ParityCheck) (e : List ℕ) :
    (e.length ≠ pc.cols → pc.syndrome e = none) ∧
    (e.length = pc.cols →
      pc.syndrome e = some (pc.S.map (fun row => dotProd row e % 2))) ∧
    (∀ a b c : ℕ, threeQubitSyndrome [a, b, c] = some [(a + b) % 2, (b + c) % 2]) := by
  refine ⟨?_, ?_, ?_⟩
  · intro h
    unfold ParityCheck.syndrome
    rw [if_neg h]
  · intro h
    unfold ParityCheck.syndrome
    rw [if_pos h]
  · intro a b c
    unfold threeQubitSyndrome threeQubitChecks ParityCheck.syndrome ParityCheck.cols
    simp [dotProd]

/-- Witness for C7: a length-2 vector fails on the 3-column matrix, and a
correctly shaped vector yields its parity checks. -/
theorem syndrome_shape_mismatch_and_value_witness :
    threeQubitChecks.syndrome [1, 1] = none ∧
    threeQubitSyndrome [0, 1, 1] = some [1, 0] := by
  refine ⟨(syndrome_shape_mismatch_and_value threeQubitChecks [1, 1]).1 (by decide), ?_⟩
  have h := (syndrome_shape_mismatch_and_value threeQubitChecks [1, 1]).2.2 0 1 1
  rw [h]

/-- C8 counterexample: on the length-5 vector `[1,1,0,0,0]` the code's
`decode_majority` returns 1 although only 2 of 5 entries are 1, so the
claim's "more than half" reading fails for general binary vectors. -/
theorem decode_majority_counterexample :
    decode_majority [1, 1, 0, 0, 0] = 1 ∧ majoritySpec [1, 1, 0, 0, 0] = 0 := by
  decide

/-- C8 amended: for every binary vector of length 3 (the length the
3-qubit code uses), `decode_majority` returns 1 iff strictly more than
half of the entries are 1, else 0. -/
theorem decode_majority_is_majority_on_length3 (w : List ℕ) (hlen : w.length = 3)
    (hbin : ∀ b ∈ w, b = 0 ∨ b = 1) :
    decode_majority w = majoritySpec w := by
  obtain ⟨a, b, c, rfl⟩ := List.length_eq_three.mp hlen
  have ha := hbin a (by simp)
  have hb := hbin b (by simp)
  have hc := hbin c (by simp)
  rcases ha with rfl | rfl <;> rcases hb with rfl | rfl <;> rcases hc with rfl | rfl <;> decide

/-- Witness for the amended C8 at the vector `[1, 1, 0]`. -/
theorem decode_majority_is_majority_on_length3_witness :
    decode_majority [1, 1, 0] = majoritySpec [1, 1, 0] :=
  decode_majority_is_majority_on_length3 [1, 1, 0] rfl (by decide)

/-- C9: with flip probability `p = 0` (and a random source drawing values
in `[0,1)`, hence nonnegative), all three Monte-Carlo estimators return
exactly 0. -/
theorem estimators_zero_at_p_zero (n trials : ℕ) (stream : ℕ → ℚ)
    (hn : 0 < n) (htr : 0 < trials) (hs : ∀ i, 0 ≤ stream i) :
    repetition_mc_error n 0 trials stream = 0 ∧
    bitflip_mc_error 0 trials stream = some 0 ∧
    phaseflip_mc_error 0 trials stream = some 0 := by
  refine ⟨repetition_mc_error_of_zero n trials stream hs, ?_, ?_⟩
  · unfold bitflip_mc_error
    rw [bitflip_errs_of_zero stream hs trials]
    show (if trials = 0 then none else some (((0 : ℕ) : ℚ) / (trials : ℚ))) = some 0
    rw [if_neg htr.ne', Nat.cast_zero, zero_div]
  · unfold phaseflip_mc_error
    rw [← errs_agree, bitflip_errs_of_zero stream hs trials]
    show (if trials = 0 then none else some (((0 : ℕ) : ℚ) / (trials : ℚ))) = some 0
    rw [if_neg htr.ne', Nat.cast_zero, zero_div]

/-- Witness for C9 at `n = 3`, `trials = 1`, a constant random source. -/
theorem estimators_zero_at_p_zero_witness :
    repetition_mc_error 3 0 1 (fun _ => 1 / 2) = 0 ∧
    bitflip_mc_error 0 1 (fun _ => 1 / 2) = some 0 ∧
    phaseflip_mc_error 0 1 (fun _ => 1 / 2) = some 0 :=
  estimators_zero_at_p_zero 3 1 (fun _ => 1 / 2) (by decide) (by decide)
    (fun _ => by norm_num)

/-- C10: `pauli_commutes` never validates the symbol alphabet: any
equal-length strings yield a result and no error, positions whose symbol
pair is outside the anticommutation table contribute nothing, and
`commutes("A","B")` returns true. -/
theorem unknown_symbols_silently_commute (P Q : String) (hlen : P.length = Q.length) :
    (∃ b, pauli_commutes P Q = Except.ok b) ∧
    ((∀ ab ∈ P.data.zip Q.data, inAntiTable ab.1 ab.2 = false) →
      pauli_commutes P Q = Except.ok true) ∧
    pauli_commutes "A" "B" = Except.ok true := by
  refine ⟨⟨((P.data.zip Q.data).countP (fun ab => siteAnti ab.1 ab.2)) % 2 == 0, ?_⟩, ?_, rfl⟩
  · unfold pauli_commutes
    rw [if_neg (fun h => h hlen)]
  · intro hnone
    have hc : (P.data.zip Q.data).countP (fun ab => siteAnti ab.1 ab.2) = 0 := by
      rw [List.countP_eq_zero]
      intro ab hab
      simp [siteAnti, hnone ab hab]
    unfold pauli_commutes
    rw [if_neg (fun h => h hlen), hc]
    rfl

/-- Witness for C10 at the non-Pauli pair `("A", "B")`. -/
theorem unknown_symbols_silently_commute_witness :
    pauli_commutes "A" "B" = Except.ok true :=
  (unknown_symbols_silently_commute "A" "B" rfl).2.1 (by decide)

end Qec
